import Mathlib

/-!
Verification of the chat application's view-model and controller logic.

Each section embeds one piece of the source code as executable Lean
definitions and proves the specified properties about it:

* message grouping (Chat component, `groupedMessages`)
* pinned-message subset (Chat component, `pinnedMessages`)
* typing-indicator staleness filter (Chat component, typing subscription)
* snapshot decoding of message records (Chat component, messages subscription)
* unread counters (`sendMessage` / `getChatById` controllers)
* duplicate direct-chat detection (`createChat` controller)
* attachment filtering and send-failure handling (`handleSendMessage`)
* mark-as-read endpoint (messages router)
-/

/-- A message as held in the Chat component's `messages` state.  The
timestamp is milliseconds since the epoch; `none` models a Firestore
document whose `timestamp` field is still an unresolved server-time
placeholder (`data.timestamp?.toDate()` yields `undefined`). -/
structure ChatMessage where
  id : String
  senderId : String
  timestamp : Option Int
  isPinned : Bool
  isEdited : Bool
deriving DecidableEq

/-! ## Message Grouping Engine

Embeds the `groupedMessages` computation of the Chat component
(src/unnamed/part_007, lines 406-436).  The JS code formats each
timestamp as a local-calendar-day string `format(t, 'yyyy-MM-dd')`;
we abstract that by a day function `dayOf : Int → Int` (the format is
injective on days, so comparing formatted strings is comparing days;
a missing timestamp yields the empty string, modelled by `none`). -/

/-- The running state of the single linear grouping pass: accumulated
groups, the group currently being built, the previous message's sender
id and day (JS initialises both to the empty string, i.e. before the
first message nothing has been seen: `none` day, `""` sender), and the
previous message itself (standing for `messages[index-1]`). -/
structure GroupState where
  groups : List (List ChatMessage)
  currentGroup : List ChatMessage
  lastSenderId : String
  lastDate : Option Int
  prev : Option ChatMessage
deriving DecidableEq

/-- The third disjunct of the split condition:
`index > 0 && message.timestamp && messages[index-1].timestamp &&
 (message.timestamp.getTime() - messages[index-1].timestamp.getTime() > 5*60*1000)`. -/
def gapExceeded (prev : Option ChatMessage) (m : ChatMessage) : Bool :=
  match prev, m.timestamp with
  | some p, some t =>
    match p.timestamp with
    | some pt => decide (t - pt > 5 * 60 * 1000)
    | none => false
  | _, _ => false

/-- The full split condition: sender changed, calendar day changed, or
the gap to the previous message exceeds five minutes. -/
def startsNewGroup (dayOf : Int → Int) (st : GroupState) (m : ChatMessage) : Bool :=
  decide (m.senderId ≠ st.lastSenderId) ||
  decide (m.timestamp.map dayOf ≠ st.lastDate) ||
  gapExceeded st.prev m

/-- One iteration of the `messages.forEach` body: when the split
condition holds and the current group is nonempty, flush it; then push
the message onto the current group and record sender/day/previous. -/
def groupStep (dayOf : Int → Int) (st : GroupState) (m : ChatMessage) : GroupState :=
  if startsNewGroup dayOf st m && decide (st.currentGroup ≠ []) then
    { groups := st.groups ++ [st.currentGroup], currentGroup := [m],
      lastSenderId := m.senderId, lastDate := m.timestamp.map dayOf, prev := some m }
  else
    { groups := st.groups, currentGroup := st.currentGroup ++ [m],
      lastSenderId := m.senderId, lastDate := m.timestamp.map dayOf, prev := some m }

/-- The state before the pass: `groupedMessages = []`, `currentGroup = []`,
`lastSenderId = ''`, `lastDate = ''`. -/
def initGroupState : GroupState :=
  { groups := [], currentGroup := [], lastSenderId := "", lastDate := none, prev := none }

/-- The final `if (currentGroup.length > 0) groupedMessages.push(currentGroup)`. -/
def finishGroups (st : GroupState) : List (List ChatMessage) :=
  if st.currentGroup ≠ [] then st.groups ++ [st.currentGroup] else st.groups

/-- The whole `groupedMessages` computation: fold the pass over the
ordered message list, then append the final nonempty current group. -/
def groupedMessages (dayOf : Int → Int) (messages : List ChatMessage) :
    List (List ChatMessage) :=
  finishGroups (messages.foldl (groupStep dayOf) initGroupState)

lemma groupStep_flatten (dayOf : Int → Int) (st : GroupState) (m : ChatMessage) :
    (groupStep dayOf st m).groups.flatten ++ (groupStep dayOf st m).currentGroup
      = st.groups.flatten ++ st.currentGroup ++ [m] := by
  unfold groupStep
  split <;> simp [List.flatten_append]

lemma foldl_groupStep_flatten (dayOf : Int → Int) (ms : List ChatMessage) :
    ∀ st : GroupState,
      (ms.foldl (groupStep dayOf) st).groups.flatten
        ++ (ms.foldl (groupStep dayOf) st).currentGroup
        = st.groups.flatten ++ st.currentGroup ++ ms := by
  induction ms with
  | nil => intro st; simp
  | cons m rest ih =>
    intro st
    rw [List.foldl_cons, ih (groupStep dayOf st m), groupStep_flatten]
    simp

lemma finishGroups_flatten (st : GroupState) :
    (finishGroups st).flatten = st.groups.flatten ++ st.currentGroup := by
  unfold finishGroups
  split
  · rw [List.flatten_append]; simp
  · rename_i hc
    push_neg at hc
    simp [hc]

lemma groupedMessages_flatten (dayOf : Int → Int) (ms : List ChatMessage) :
    (groupedMessages dayOf ms).flatten = ms := by
  unfold groupedMessages
  rw [finishGroups_flatten]
  simpa [initGroupState] using foldl_groupStep_flatten dayOf ms initGroupState

/-- Claim C1: the grouping computation partitions the ordered message
list: the concatenation of the produced groups is the input list in
order; re-running the grouping pass on the (unchanged) concatenation
yields the identical groups; and every message value occurs in the
groups exactly as often as in the input, i.e. each message occurrence
lands in exactly one group. -/
theorem grouping_partitions (dayOf : Int → Int) (ms : List ChatMessage) :
    (groupedMessages dayOf ms).flatten = ms ∧
    groupedMessages dayOf ((groupedMessages dayOf ms).flatten) = groupedMessages dayOf ms ∧
    ∀ m : ChatMessage,
      ((groupedMessages dayOf ms).map (List.count m)).sum = ms.count m := by
  refine ⟨groupedMessages_flatten dayOf ms, ?_, ?_⟩
  · rw [groupedMessages_flatten dayOf ms]
  · intro m
    conv_rhs => rw [← groupedMessages_flatten dayOf ms]
    rw [List.count_flatten]

/-- Day function used for concrete scenarios: local time is taken as
UTC, so the calendar day is the floor of the timestamp over the number
of milliseconds in a day. -/
def dayOfMillis (t : Int) : Int := t / 86400000

/-- Claim C2 scenario messages: A at 10:00:00, A at 10:00:30,
B at 10:01:00, A at 10:10:00 (milliseconds since midnight). -/
def msgA1 : ChatMessage := ⟨"m1", "A", some 36000000, false, false⟩

def msgA2 : ChatMessage := ⟨"m2", "A", some 36030000, false, false⟩

def msgB1 : ChatMessage := ⟨"m3", "B", some 36060000, false, false⟩

def msgA3 : ChatMessage := ⟨"m4", "A", some 36600000, false, false⟩

/-- Claim C2: the four-message scenario groups into exactly three
groups: [A at 10:00:00, A at 10:00:30], [B at 10:01:00], [A at 10:10:00]. -/
theorem grouping_scenario :
    groupedMessages dayOfMillis [msgA1, msgA2, msgB1, msgA3]
      = [[msgA1, msgA2], [msgB1], [msgA3]] := by
  decide

/-! ## Pinned-message subset

Embeds `const pinnedMessages = messages.filter(message => message.isPinned)`
(src/unnamed/part_007 line 404; identically src/unnamed/part_009 line 425). -/

/-- The derived pinned subset of the message list. -/
def pinnedMessages (messages : List ChatMessage) : List ChatMessage :=
  messages.filter (fun message => message.isPinned)

/-- Comparison of two messages by timestamp: both resolved and the
first is at most the second. -/
def tsLeB (a b : ChatMessage) : Bool :=
  match a.timestamp, b.timestamp with
  | some x, some y => decide (x ≤ y)
  | _, _ => false

/-- Modelled from the spec: the spec asserts the pinned subset is
"ordered by descending timestamp"; this predicate checks that adjacent
timestamps are resolved and non-increasing. -/
def sortedDescByTimestamp : List ChatMessage → Bool
  | [] => true
  | [_] => true
  | a :: b :: rest =>
    (match a.timestamp, b.timestamp with
     | some x, some y => decide (x ≥ y)
     | _, _ => false) && sortedDescByTimestamp (b :: rest)

/-- An early pinned message (timestamp 1000). -/
def pinnedEarly : ChatMessage := ⟨"p1", "A", some 1000, true, false⟩

/-- A later pinned message (timestamp 2000). -/
def pinnedLate : ChatMessage := ⟨"p2", "A", some 2000, true, false⟩

/-- Counterexample to claim C6 as stated: for the ascending message
list [pinnedEarly, pinnedLate] (the order the message query delivers),
the derived pinned subset is [pinnedEarly, pinnedLate], which is not
in descending-timestamp order — the filter preserves the input
(ascending) order and performs no re-sort. -/
theorem pinned_desc_counterexample :
    pinnedMessages [pinnedEarly, pinnedLate] = [pinnedEarly, pinnedLate] ∧
    sortedDescByTimestamp (pinnedMessages [pinnedEarly, pinnedLate]) = false := by
  decide

/-- Claim C6 (amended): the derived pinned subset contains exactly the
messages whose isPinned flag is true, preserved in the relative order
of the input list (a sublist); in particular when the input list is
ascending by timestamp, so is the pinned subset. -/
theorem pinnedMessages_spec (ms : List ChatMessage) :
    (∀ m : ChatMessage, m ∈ pinnedMessages ms ↔ m ∈ ms ∧ m.isPinned = true) ∧
    (pinnedMessages ms).Sublist ms ∧
    (ms.Pairwise (fun a b => tsLeB a b = true) →
      (pinnedMessages ms).Pairwise (fun a b => tsLeB a b = true)) := by
  refine ⟨?_, List.filter_sublist ms, ?_⟩
  · intro m
    simp [pinnedMessages, List.mem_filter]
  · intro h
    exact h.sublist (List.filter_sublist ms)

/-- An unpinned message between the two pinned ones (timestamp 1500). -/
def msgMid : ChatMessage := ⟨"u1", "A", some 1500, false, false⟩

/-- Witness for `pinnedMessages_spec` at a concrete ascending list. -/
theorem pinnedMessages_spec_witness :
    (pinnedEarly ∈ pinnedMessages [pinnedEarly, msgMid, pinnedLate] ↔
      pinnedEarly ∈ [pinnedEarly, msgMid, pinnedLate] ∧ pinnedEarly.isPinned = true) ∧
    (pinnedMessages [pinnedEarly, msgMid, pinnedLate]).Pairwise
      (fun a b => tsLeB a b = true) := by
  refine ⟨(pinnedMessages_spec [pinnedEarly, msgMid, pinnedLate]).1 pinnedEarly, ?_⟩
  exact (pinnedMessages_spec [pinnedEarly, msgMid, pinnedLate]).2.2 (by decide)

/-! ## Typing-indicator staleness filter

Embeds the typing `onSnapshot` subscription body (src/unnamed/part_007
lines 106-133): the query already excludes the viewer's own indicator
(`where('userId', '!=', currentUser.uid)`), and each delivered document
is kept only when its timestamp resolved and is less than 10000 ms
before the current time. -/

/-- A typing-indicator document; `none` timestamp models an unresolved
server-time placeholder. -/
structure TypingEntry where
  id : String
  userId : String
  userName : String
  timestamp : Option Int
deriving DecidableEq

/-- The recency test `timestamp && (new Date().getTime() - timestamp.getTime()) < 10000`. -/
def recentTyping (now : Int) (e : TypingEntry) : Bool :=
  match e.timestamp with
  | some ts => decide (now - ts < 10000)
  | none => false

/-- The active typing set for a viewer at query time `now`: the
server-side inequality filter on userId composed with the recency test. -/
def activeTyping (viewer : String) (now : Int) (docs : List TypingEntry) :
    List TypingEntry :=
  (docs.filter (fun d => decide (d.userId ≠ viewer))).filter (recentTyping now)

/-- Claim C5: for every query time and every entry of the computed
active typing set, the entry is not the viewer's own and its timestamp
is resolved and strictly less than 10 seconds in the past — so an
entry 10 or more seconds old is never shown.  The set is a pure
function of the query time and the document list, i.e. recomputed
from them on every read. -/
theorem typing_staleness (viewer : String) (now : Int) (docs : List TypingEntry) :
    ∀ e ∈ activeTyping viewer now docs,
      e.userId ≠ viewer ∧ ∃ ts : Int, e.timestamp = some ts ∧ now - ts < 10000 := by
  intro e he
  unfold activeTyping at he
  rw [List.mem_filter] at he
  obtain ⟨h1, h2⟩ := he
  rw [List.mem_filter] at h1
  refine ⟨by simpa using h1.2, ?_⟩
  unfold recentTyping at h2
  cases hts : e.timestamp with
  | none => rw [hts] at h2; simp at h2
  | some ts =>
    rw [hts] at h2
    exact ⟨ts, rfl, by simpa using h2⟩

/-- A concrete typing entry by user B five seconds before the query time. -/
def typingEntryB : TypingEntry := ⟨"d1", "B", "Bob", some 5000⟩

/-- Witness for `typing_staleness` at a concrete entry and query time. -/
theorem typing_staleness_witness :
    typingEntryB.userId ≠ "A" ∧
    ∃ ts : Int, typingEntryB.timestamp = some ts ∧ (10000 : Int) - ts < 10000 :=
  typing_staleness "A" 10000 [typingEntryB] typingEntryB (by decide)

/-! ## Snapshot decoding of message records

Embeds the messages `onSnapshot` body (src/unnamed/part_007 lines
84-100): each raw document is mapped field by field; `files`,
`isEdited`, `isPinned` are defaulted when absent, every other field is
copied as-is (absent stays absent), and every document is pushed onto
the resulting list. -/

/-- A file attachment reference as stored inside a message document. -/
structure FileRef where
  id : String
  url : String
  downloadUrl : String
  name : String
  ftype : String
  size : Nat
deriving DecidableEq

/-- A raw external message document: every field may be absent. -/
structure RawMessageDoc where
  id : String
  text : Option String
  senderId : Option String
  senderName : Option String
  timestamp : Option Int
  files : Option (List FileRef)
  isEdited : Option Bool
  isPinned : Option Bool
deriving DecidableEq

/-- The entity pushed onto `messagesList` for one document. -/
structure DecodedMessage where
  id : String
  text : Option String
  senderId : Option String
  senderName : Option String
  timestamp : Option Int
  files : List FileRef
  isEdited : Bool
  isPinned : Bool
deriving DecidableEq

/-- The per-document mapping of the snapshot callback. -/
def decodeMessageDoc (doc : RawMessageDoc) : DecodedMessage :=
  { id := doc.id, text := doc.text, senderId := doc.senderId,
    senderName := doc.senderName, timestamp := doc.timestamp,
    files := doc.files.getD [], isEdited := doc.isEdited.getD false,
    isPinned := doc.isPinned.getD false }

/-- The whole snapshot callback: map the decoder over every document. -/
def decodeSnapshotMsgs (docs : List RawMessageDoc) : List DecodedMessage :=
  docs.map decodeMessageDoc

/-- A raw message document missing every field, in particular the
required senderId. -/
def badMsgDoc : RawMessageDoc := ⟨"bad", none, none, none, none, none, none, none⟩

/-- Counterexample to claim C7 as stated: a record missing senderId is
not rejected or skipped — it is decoded and included in the collection
with senderId still absent; no failure value is ever produced. -/
theorem decoder_counterexample :
    (decodeSnapshotMsgs [badMsgDoc]).length = 1 ∧
    (decodeSnapshotMsgs [badMsgDoc]).head? = some (decodeMessageDoc badMsgDoc) ∧
    (decodeMessageDoc badMsgDoc).senderId = none := by
  decide

/-- Claim C7 (amended): decoding is total and never fails: every raw
record, including one missing required fields such as senderId, is
mapped to an entity and included in the decoded collection (missing
fields stay absent; files, isEdited, isPinned default to [], false,
false).  There is no MalformedRecord error path, so one record is
trivially never fatal to the rest of the collection. -/
theorem decoder_total (docs : List RawMessageDoc) :
    (decodeSnapshotMsgs docs).length = docs.length ∧
    ∀ d ∈ docs,
      decodeMessageDoc d ∈ decodeSnapshotMsgs docs ∧
      (decodeMessageDoc d).senderId = d.senderId ∧
      (decodeMessageDoc d).files = d.files.getD [] ∧
      (decodeMessageDoc d).isEdited = d.isEdited.getD false ∧
      (decodeMessageDoc d).isPinned = d.isPinned.getD false := by
  refine ⟨List.length_map docs decodeMessageDoc, ?_⟩
  intro d hd
  exact ⟨List.mem_map_of_mem decodeMessageDoc hd, rfl, rfl, rfl, rfl⟩

/-- Witness for `decoder_total` at the concrete malformed document. -/
theorem decoder_total_witness :
    decodeMessageDoc badMsgDoc ∈ decodeSnapshotMsgs [badMsgDoc] ∧
    (decodeMessageDoc badMsgDoc).senderId = badMsgDoc.senderId ∧
    (decodeMessageDoc badMsgDoc).files = badMsgDoc.files.getD [] ∧
    (decodeMessageDoc badMsgDoc).isEdited = badMsgDoc.isEdited.getD false ∧
    (decodeMessageDoc badMsgDoc).isPinned = badMsgDoc.isPinned.getD false :=
  (decoder_total [badMsgDoc]).2 badMsgDoc (by decide)

/-! ## Unread counters

Embeds the Firestore chat-document updates of the REST controllers:
`sendMessage` (src/server/src/controllers/auth.ts — messages controller,
lines 213-226) increments `unreadCounts.<member>` for every member
other than the sender, reading each previous value from the chat
snapshot taken before the update; `getChatById`
(src/server/src/controllers/chats.ts lines 104-109) resets
`unreadCounts.<viewer>` to 0.  Both endpoints 403 when the caller is
not a member, modelled by returning `none`. -/

/-- A chat document restricted to the fields these endpoints touch:
the member list and the per-member unread-counter map (an association
list; a missing key models a field absent from the Firestore map). -/
structure ChatState where
  members : List String
  unreadCounts : List (String × Int)
deriving DecidableEq

/-- Point update of the counter map: Firestore
`update({ ['unreadCounts.' + k]: v })` replaces the value at key k or
creates the entry. -/
def setCount : List (String × Int) → String → Int → List (String × Int)
  | [], k, v => [(k, v)]
  | (k', v') :: rest, k, v =>
    if k' = k then (k, v) :: rest else (k', v') :: setCount rest k v

/-- JS `chatData.unreadCounts?.[memberId] || 0`: an absent entry and
the (falsy) stored value 0 both yield 0; any other stored value is
returned unchanged. -/
def jsCountOrZero (stored : Option Int) : Int :=
  match stored with
  | none => 0
  | some v => if v = 0 then 0 else v

lemma jsCountOrZero_eq_getD (stored : Option Int) :
    jsCountOrZero stored = stored.getD 0 := by
  cases stored with
  | none => rfl
  | some v =>
    by_cases h : v = 0 <;> simp [jsCountOrZero, h]

/-- The update object built by `sendMessage`: one fold over the chat's
members, setting `unreadCounts.<memberId>` to the snapshot value plus
one for every member other than the sender. -/
def sendMessageUpdate (st : ChatState) (uid : String) : List (String × Int) :=
  st.members.foldl
    (fun acc memberId =>
      if memberId ≠ uid then
        setCount acc memberId (jsCountOrZero (st.unreadCounts.lookup memberId) + 1)
      else acc)
    st.unreadCounts

/-- The `sendMessage` endpoint's effect on the chat document; `none`
models the 403 response when the sender is not a member. -/
def sendMessage (st : ChatState) (uid : String) : Option ChatState :=
  if uid ∈ st.members then some { st with unreadCounts := sendMessageUpdate st uid }
  else none

/-- The `getChatById` endpoint's effect on the chat document (the
"mark viewed" action): reset the viewer's counter to 0; `none` models
the 403 response for a non-member. -/
def getChatById (st : ChatState) (uid : String) : Option ChatState :=
  if uid ∈ st.members then some { st with unreadCounts := setCount st.unreadCounts uid 0 }
  else none

lemma lookup_setCount_self (k : String) (v : Int) :
    ∀ l : List (String × Int), (setCount l k v).lookup k = some v := by
  intro l
  induction l with
  | nil => simp [setCount, List.lookup]
  | cons p rest ih =>
    obtain ⟨k', v'⟩ := p
    by_cases h : k' = k
    · simp [setCount, h, List.lookup]
    · simp only [setCount, if_neg h, List.lookup]
      have : (k == k') = false := by
        simp [beq_iff_eq]
        intro he
        exact h he.symm
      rw [this]
      exact ih

lemma lookup_setCount_ne (k k' : String) (v : Int) (hne : k' ≠ k) :
    ∀ l : List (String × Int), (setCount l k v).lookup k' = l.lookup k' := by
  intro l
  induction l with
  | nil =>
    simp only [setCount, List.lookup]
    have : (k' == k) = false := by simpa [beq_iff_eq] using hne
    rw [this]
  | cons p rest ih =>
    obtain ⟨k1, v1⟩ := p
    by_cases h : k1 = k
    · subst h
      simp only [setCount, if_pos rfl, List.lookup]
      have : (k' == k1) = false := by simpa [beq_iff_eq] using hne
      rw [this]
    · simp only [setCount, if_neg h, List.lookup]
      cases hbe : (k' == k1) with
      | true => rfl
      | false => exact ih

/-- Generic shape of the `sendMessage` fold, abstracted over the
member list still to process and the accumulated update. -/
def bumpFold (orig : List (String × Int)) (uid : String)
    (mem : List String) (acc : List (String × Int)) : List (String × Int) :=
  mem.foldl
    (fun a memberId =>
      if memberId ≠ uid then
        setCount a memberId (jsCountOrZero (orig.lookup memberId) + 1)
      else a)
    acc

lemma sendMessageUpdate_eq_bumpFold (st : ChatState) (uid : String) :
    sendMessageUpdate st uid = bumpFold st.unreadCounts uid st.members st.unreadCounts := rfl

lemma bumpFold_cons (orig : List (String × Int)) (uid x : String)
    (rest : List String) (acc : List (String × Int)) :
    bumpFold orig uid (x :: rest) acc
      = bumpFold orig uid rest
          (if x ≠ uid then setCount acc x (jsCountOrZero (orig.lookup x) + 1)
           else acc) := rfl

lemma bumpFold_lookup_notMem (orig : List (String × Int)) (uid : String)
    (m : String) :
    ∀ (mem : List String) (acc : List (String × Int)), m ∉ mem →
      (bumpFold orig uid mem acc).lookup m = acc.lookup m := by
  intro mem
  induction mem with
  | nil => intro acc _; rfl
  | cons x rest ih =>
    intro acc hm
    have hxm : m ≠ x := fun h => hm (h ▸ List.mem_cons_self x rest)
    have hrest : m ∉ rest := fun h => hm (List.mem_cons_of_mem x h)
    rw [bumpFold_cons]
    by_cases hx : x ≠ uid
    · rw [if_pos hx, ih (setCount acc x (jsCountOrZero (orig.lookup x) + 1)) hrest]
      exact lookup_setCount_ne x m _ hxm acc
    · rw [if_neg hx]
      exact ih acc hrest

lemma bumpFold_lookup_mem (orig : List (String × Int)) (uid : String)
    (m : String) (hm : m ≠ uid) :
    ∀ (mem : List String) (acc : List (String × Int)), m ∈ mem →
      (bumpFold orig uid mem acc).lookup m
        = some (jsCountOrZero (orig.lookup m) + 1) := by
  intro mem
  induction mem with
  | nil => intro acc h; cases h
  | cons x rest ih =>
    intro acc hmem
    rw [bumpFold_cons]
    by_cases hr : m ∈ rest
    · by_cases hx : x ≠ uid
      · rw [if_pos hx]
        exact ih _ hr
      · rw [if_neg hx]
        exact ih _ hr
    · have hx : m = x := by
        rcases List.mem_cons.mp hmem with h | h
        · exact h
        · exact absurd h hr
      subst hx
      rw [if_pos hm, bumpFold_lookup_notMem orig uid m rest _ hr]
      exact lookup_setCount_self m _ _

lemma bumpFold_lookup_uid (orig : List (String × Int)) (uid : String) :
    ∀ (mem : List String) (acc : List (String × Int)),
      (bumpFold orig uid mem acc).lookup uid = acc.lookup uid := by
  intro mem
  induction mem with
  | nil => intro acc; rfl
  | cons x rest ih =>
    intro acc
    rw [bumpFold_cons]
    by_cases hx : x ≠ uid
    · rw [if_pos hx, ih]
      exact lookup_setCount_ne x uid _ (fun h => hx h.symm) acc
    · rw [if_neg hx]
      exact ih acc

/-- Nonnegativity of every counter readable from a counter map. -/
def countsNonneg (l : List (String × Int)) : Prop :=
  ∀ m : String, 0 ≤ (l.lookup m).getD 0

lemma countsNonneg_setCount (l : List (String × Int)) (k : String) (v : Int)
    (hl : countsNonneg l) (hv : 0 ≤ v) : countsNonneg (setCount l k v) := by
  intro m
  by_cases h : m = k
  · subst h
    rw [lookup_setCount_self]
    simpa using hv
  · rw [lookup_setCount_ne k m v h]
    exact hl m

lemma countsNonneg_bumpFold (orig : List (String × Int)) (uid : String)
    (horig : countsNonneg orig) :
    ∀ (mem : List String) (acc : List (String × Int)),
      countsNonneg acc → countsNonneg (bumpFold orig uid mem acc) := by
  intro mem
  induction mem with
  | nil => intro acc h; exact h
  | cons x rest ih =>
    intro acc hacc
    rw [bumpFold_cons]
    by_cases hx : x ≠ uid
    · rw [if_pos hx]
      apply ih
      apply countsNonneg_setCount _ _ _ hacc
      have := horig x
      rw [jsCountOrZero_eq_getD]
      omega
    · rw [if_neg hx]
      exact ih acc hacc

/-- An operation on a chat document: a member sends a message, or a
member views the chat. -/
inductive ChatOp where
  | send (uid : String)
  | view (uid : String)
deriving DecidableEq

/-- Apply one endpoint call; a rejected call (non-member, HTTP 403)
leaves the document unchanged. -/
def applyChatOp (st : ChatState) : ChatOp → ChatState
  | ChatOp.send u => (sendMessage st u).getD st
  | ChatOp.view u => (getChatById st u).getD st

/-- Apply a sequence of endpoint calls. -/
def applyChatOps (st : ChatState) (ops : List ChatOp) : ChatState :=
  ops.foldl applyChatOp st

lemma countsNonneg_applyChatOp (st : ChatState) (op : ChatOp)
    (h : countsNonneg st.unreadCounts) :
    countsNonneg (applyChatOp st op).unreadCounts := by
  cases op with
  | send u =>
    unfold applyChatOp sendMessage
    by_cases hu : u ∈ st.members
    · simp only [if_pos hu, Option.getD_some]
      rw [sendMessageUpdate_eq_bumpFold]
      exact countsNonneg_bumpFold _ u h _ _ h
    · simp only [if_neg hu, Option.getD_none]
      exact h
  | view u =>
    unfold applyChatOp getChatById
    by_cases hu : u ∈ st.members
    · simp only [if_pos hu, Option.getD_some]
      exact countsNonneg_setCount _ _ _ h le_rfl
    · simp only [if_neg hu, Option.getD_none]
      exact h

/-- Claim C3: sending a message increments the stored unread counter
by exactly one (from its previous value, an absent entry counting as
zero) for every member other than the sender, leaves the sender's own
counter untouched, viewing the chat sets the viewer's counter to
exactly zero, and no sequence of send/view endpoint calls starting
from nonnegative counters ever produces a negative counter. -/
theorem unread_counters_spec :
    (∀ (st : ChatState) (uid m : String) (st' : ChatState),
        sendMessage st uid = some st' → m ∈ st.members → m ≠ uid →
        st'.unreadCounts.lookup m
          = some ((st.unreadCounts.lookup m).getD 0 + 1)) ∧
    (∀ (st : ChatState) (uid : String) (st' : ChatState),
        sendMessage st uid = some st' →
        st'.unreadCounts.lookup uid = st.unreadCounts.lookup uid) ∧
    (∀ (st : ChatState) (uid : String) (st' : ChatState),
        getChatById st uid = some st' →
        st'.unreadCounts.lookup uid = some 0) ∧
    (∀ (st : ChatState) (ops : List ChatOp),
        countsNonneg st.unreadCounts →
        countsNonneg (applyChatOps st ops).unreadCounts) := by
  refine ⟨?_, ?_, ?_, ?_⟩
  · intro st uid m st' hsend hm hmu
    unfold sendMessage at hsend
    by_cases hu : uid ∈ st.members
    · rw [if_pos hu] at hsend
      cases hsend
      simp only [sendMessageUpdate_eq_bumpFold]
      rw [bumpFold_lookup_mem st.unreadCounts uid m hmu st.members st.unreadCounts hm,
        jsCountOrZero_eq_getD]
    · rw [if_neg hu] at hsend
      cases hsend
  · intro st uid st' hsend
    unfold sendMessage at hsend
    by_cases hu : uid ∈ st.members
    · rw [if_pos hu] at hsend
      cases hsend
      simp only [sendMessageUpdate_eq_bumpFold]
      exact bumpFold_lookup_uid st.unreadCounts uid st.members st.unreadCounts
    · rw [if_neg hu] at hsend
      cases hsend
  · intro st uid st' hview
    unfold getChatById at hview
    by_cases hu : uid ∈ st.members
    · rw [if_pos hu] at hview
      cases hview
      exact lookup_setCount_self uid 0 st.unreadCounts
    · rw [if_neg hu] at hview
      cases hview
  · intro st ops
    induction ops generalizing st with
    | nil => intro h; exact h
    | cons op rest ih =>
      intro h
      unfold applyChatOps
      rw [List.foldl_cons]
      exact ih (applyChatOp st op) (countsNonneg_applyChatOp st op h)

/-- The chat document between users A and B with no counters yet. -/
def chatAB : ChatState := ⟨["A", "B"], []⟩

/-- The chat document after A sends a message. -/
def chatABafterSend : ChatState := ⟨["A", "B"], [("B", 1)]⟩

/-- Witness for `unread_counters_spec` at a concrete chat: A sends,
B's counter becomes 0 + 1; then B views and all counters remain
nonnegative. -/
theorem unread_counters_witness :
    chatABafterSend.unreadCounts.lookup "B"
      = some ((chatAB.unreadCounts.lookup "B").getD 0 + 1) ∧
    countsNonneg
      (applyChatOps chatAB [ChatOp.send "A", ChatOp.view "B"]).unreadCounts :=
  ⟨unread_counters_spec.1 chatAB "A" "B" chatABafterSend (by decide) (by decide)
      (by decide),
   unread_counters_spec.2.2.2 chatAB [ChatOp.send "A", ChatOp.view "B"]
      (fun m => by simp [chatAB, List.lookup])⟩

/-! ## Duplicate direct-chat detection

Embeds the `createChat` controller (src/server/src/controllers/chats.ts
lines 135-196): the caller is merged into the member list
(`[...new Set([...members, uid])]`, first occurrence kept), and for a
non-group chat with exactly two members the existing-chat query is
`where('members', '==', allMembers.sort())` — exact array equality
against the candidate sorted in place — plus `isGroup == false`,
limited to one result.  When a match is found the existing chat is
returned and nothing is created; otherwise the chat is created with
the (now sorted, because `sort()` mutates) member array. -/

/-- A stored chat document restricted to the fields the duplicate
check reads. -/
structure ChatDoc where
  members : List String
  isGroup : Bool
deriving DecidableEq

/-- The outcome of a `createChat` call: HTTP 200 with the existing
chat, or HTTP 201 having appended a new chat. -/
inductive CreateResult where
  | existing (c : ChatDoc)
  | created
deriving DecidableEq

def dedupFirstAux (seen : List String) : List String → List String
  | [] => []
  | x :: xs =>
    if x ∈ seen then dedupFirstAux seen xs else x :: dedupFirstAux (x :: seen) xs

/-- JS `[...new Set(l)]`: drop duplicates keeping first occurrences. -/
def dedupFirst (l : List String) : List String := dedupFirstAux [] l

/-- Code-unit comparison of character lists, as JS string comparison
performs it. -/
def charListLe : List Char → List Char → Bool
  | [], _ => true
  | _ :: _, [] => false
  | a :: as, b :: bs =>
    if a.toNat < b.toNat then true
    else if b.toNat < a.toNat then false
    else charListLe as bs

/-- JS string comparison `a <= b` (code-unit lexicographic). -/
def strLe (a b : String) : Bool := charListLe a.data b.data

def orderedInsertStr (a : String) : List String → List String
  | [] => [a]
  | b :: l => if strLe a b then a :: b :: l else b :: orderedInsertStr a l

/-- JS `Array.prototype.sort()` on strings: sort lexicographically by
code units (insertion sort; JS sort stability is irrelevant for the
claims proved here). -/
def sortStrings : List String → List String
  | [] => []
  | a :: l => orderedInsertStr a (sortStrings l)

/-- The `createChat` endpoint against the current chats collection:
returns the response and the collection afterwards. -/
def createChat (dbChats : List ChatDoc) (uid : String) (members : List String)
    (isGroup : Bool) : CreateResult × List ChatDoc :=
  if !isGroup && ((dedupFirst (members ++ [uid])).length == 2) then
    match dbChats.find? (fun c =>
        (c.members == sortStrings (dedupFirst (members ++ [uid]))) &&
        (c.isGroup == false)) with
    | some c => (CreateResult.existing c, dbChats)
    | none => (CreateResult.created,
        dbChats ++ [⟨sortStrings (dedupFirst (members ++ [uid])), false⟩])
  else (CreateResult.created, dbChats ++ [⟨dedupFirst (members ++ [uid]), isGroup⟩])

/-- The normalized member key the duplicate check compares against,
for a direct-chat request by `uid` towards `members`. -/
def directChatKey (uid : String) (members : List String) : List String :=
  sortStrings (dedupFirst (members ++ [uid]))

/-- An existing direct chat between U1 and U2 stored with its member
array not in sorted order. -/
def unsortedChatU2U1 : ChatDoc := ⟨["U2", "U1"], false⟩

/-- Counterexample to claim C4 as stated: the stored chat
["U2","U1"] is a 2-member non-group chat between U1 and U2, yet a
create request by U1 towards U2 does not recognize it (the check
compares the sorted candidate ["U1","U2"] by exact array equality) and
a duplicate direct chat is created. -/
theorem createChat_duplicate_counterexample :
    unsortedChatU2U1.members.length = 2 ∧
    "U1" ∈ unsortedChatU2U1.members ∧ "U2" ∈ unsortedChatU2U1.members ∧
    unsortedChatU2U1.isGroup = false ∧
    (createChat [unsortedChatU2U1] "U1" ["U2"] false).1 = CreateResult.created ∧
    (createChat [unsortedChatU2U1] "U1" ["U2"] false).2
      = [unsortedChatU2U1, ⟨["U1", "U2"], false⟩] := by
  decide

lemma dedupFirst_pair (a b : String) (h : b ≠ a) :
    dedupFirst [a, b] = [a, b] := by
  simp [dedupFirst, dedupFirstAux, h]

lemma charListLe_total (as : List Char) :
    ∀ bs : List Char, charListLe as bs = true ∨ charListLe bs as = true := by
  induction as with
  | nil => intro bs; left; rfl
  | cons a as ih =>
    intro bs
    cases bs with
    | nil => right; rfl
    | cons b bs =>
      by_cases h1 : a.toNat < b.toNat
      · left
        simp [charListLe, h1]
      · by_cases h2 : b.toNat < a.toNat
        · right
          simp [charListLe, h2]
        · rcases ih bs with h | h
          · left
            simp [charListLe, h1, h2, h]
          · right
            simp [charListLe, h1, h2, h]

lemma charListLe_antisymm (as : List Char) :
    ∀ bs : List Char, charListLe as bs = true → charListLe bs as = true → as = bs := by
  induction as with
  | nil =>
    intro bs _ hba
    cases bs with
    | nil => rfl
    | cons b bs => simp [charListLe] at hba
  | cons a as ih =>
    intro bs hab hba
    cases bs with
    | nil => simp [charListLe] at hab
    | cons b bs =>
      by_cases h1 : a.toNat < b.toNat
      · simp [charListLe, h1, Nat.lt_asymm h1] at hba
      · by_cases h2 : b.toNat < a.toNat
        · simp [charListLe, h1, h2] at hab
        · have hval : a = b := by
            have hn : a.toNat = b.toNat :=
              Nat.le_antisymm (Nat.le_of_not_lt h2) (Nat.le_of_not_lt h1)
            exact Char.eq_of_val_eq (UInt32.toNat.inj hn)
          subst hval
          simp [charListLe, h1] at hab hba
          rw [ih bs hab hba]

lemma strLe_total (a b : String) : strLe a b = true ∨ strLe b a = true :=
  charListLe_total a.data b.data

lemma strLe_antisymm (a b : String) (hab : strLe a b = true)
    (hba : strLe b a = true) : a = b := by
  have hdata : a.data = b.data := charListLe_antisymm a.data b.data hab hba
  cases a with
  | mk da =>
    cases b with
    | mk db =>
      simp only [String.data] at hdata
      rw [hdata]

lemma sortStrings_pair (a b : String) :
    sortStrings [a, b] = if strLe a b then [a, b] else [b, a] := rfl

lemma sortStrings_pair_comm (a b : String) :
    sortStrings [a, b] = sortStrings [b, a] := by
  rw [sortStrings_pair, sortStrings_pair]
  by_cases h1 : strLe a b = true
  · by_cases h2 : strLe b a = true
    · have hab : a = b := strLe_antisymm a b h1 h2
      subst hab
      rfl
    · rw [if_pos h1, if_neg h2]
  · by_cases h2 : strLe b a = true
    · rw [if_neg h1, if_pos h2]
    · rcases strLe_total a b with h | h
      · exact absurd h h1
      · exact absurd h h2

lemma directChatKey_comm (u1 u2 : String) (h : u1 ≠ u2) :
    directChatKey u1 [u2] = directChatKey u2 [u1] := by
  unfold directChatKey
  rw [List.singleton_append, List.singleton_append,
    dedupFirst_pair u2 u1 h, dedupFirst_pair u1 u2 (fun he => h he.symm)]
  exact sortStrings_pair_comm u2 u1

/-- Claim C4 (amended): the duplicate check normalizes both request
orders to the same sorted member key, so the requests [U1,U2] and
[U2,U1] are treated identically; and when the collection already holds
a 2-member non-group chat whose stored member array equals that sorted
key, `createChat` returns an existing chat and creates nothing.  (A
direct chat stored with an unsorted member array is not recognized,
per the counterexample.) -/
theorem createChat_dedup_sorted (dbChats : List ChatDoc) (u1 u2 : String)
    (hne : u1 ≠ u2) (c : ChatDoc) (hc : c ∈ dbChats)
    (hm : c.members = directChatKey u1 [u2]) (hg : c.isGroup = false) :
    directChatKey u1 [u2] = directChatKey u2 [u1] ∧
    ∃ cex : ChatDoc,
      (createChat dbChats u1 [u2] false).1 = CreateResult.existing cex ∧
      (createChat dbChats u1 [u2] false).2 = dbChats := by
  refine ⟨directChatKey_comm u1 u2 hne, ?_⟩
  have hdd : dedupFirst ([u2] ++ [u1]) = [u2, u1] := by
    rw [List.singleton_append]
    exact dedupFirst_pair u2 u1 hne
  have hkey : directChatKey u1 [u2] = sortStrings [u2, u1] := by
    unfold directChatKey
    rw [hdd]
  have hpred : ((c.members == sortStrings (dedupFirst ([u2] ++ [u1]))) &&
      (c.isGroup == false)) = true := by
    rw [hdd]
    simp [hm, hkey, hg]
  unfold createChat
  have hcond : (!(false : Bool) &&
      ((dedupFirst ([u2] ++ [u1])).length == 2)) = true := by
    rw [hdd]
    rfl
  rw [hcond]
  simp only [if_true]
  cases hfind : dbChats.find? (fun x =>
      (x.members == sortStrings (dedupFirst ([u2] ++ [u1]))) &&
      (x.isGroup == false)) with
  | none =>
    exfalso
    exact List.find?_eq_none.mp hfind c hc hpred
  | some cex =>
    exact ⟨cex, rfl, rfl⟩

/-- The same two-user collection with the member array stored sorted. -/
def sortedChatU1U2 : ChatDoc := ⟨["U1", "U2"], false⟩

/-- Witness for `createChat_dedup_sorted` at a concrete collection. -/
theorem createChat_dedup_sorted_witness :
    directChatKey "U1" ["U2"] = directChatKey "U2" ["U1"] ∧
    ∃ cex : ChatDoc,
      (createChat [sortedChatU1U2] "U1" ["U2"] false).1 = CreateResult.existing cex ∧
      (createChat [sortedChatU1U2] "U1" ["U2"] false).2 = [sortedChatU1U2] :=
  createChat_dedup_sorted [sortedChatU1U2] "U1" "U2" (by decide) sortedChatU1U2
    (by decide) (by decide) (by decide)

/-! ## Upload coordinator and outgoing attachments

Embeds the client's upload tracking and send filter
(src/unnamed/part_009).  `handleFileChange` (lines 204-274) enqueues a
selected file with progress 0 and empty url/id, then on completed
transfer stores the remote id/url and progress 100, or on error only
progress -1.  `handleSendMessage` (lines 290-300) includes in the
outgoing message exactly the uploads with a nonempty url and id
(`.filter(upload => upload.url && upload.id)`). -/

/-- A pending attachment as held in the `fileUploads` state. -/
structure FileUpload where
  name : String
  ftype : String
  size : Nat
  progress : Int
  url : String
  downloadUrl : String
  id : String
deriving DecidableEq

/-- The remote reference returned by a completed storage transfer. -/
structure RemoteRef where
  id : String
  url : String
  downloadUrl : String
deriving DecidableEq

/-- A freshly selected attachment: progress 0, no remote reference. -/
def newUpload (name ftype : String) (size : Nat) : FileUpload :=
  { name := name, ftype := ftype, size := size, progress := 0,
    url := "", downloadUrl := "", id := "" }

/-- Completed transfer: store the remote reference, progress 100. -/
def uploadSucceed (u : FileUpload) (r : RemoteRef) : FileUpload :=
  { u with url := r.url, downloadUrl := r.downloadUrl, id := r.id, progress := 100 }

/-- Failed transfer: only the progress sentinel changes. -/
def uploadFail (u : FileUpload) : FileUpload := { u with progress := -1 }

/-- The attachment object placed into the outgoing message. -/
def mkSentFile (u : FileUpload) : FileRef :=
  { id := u.id, url := u.url, downloadUrl := u.downloadUrl,
    name := u.name, ftype := u.ftype, size := u.size }

/-- The send filter: `fileUploads.filter(upload => upload.url && upload.id)`
followed by the mapping to attachment objects (JS string truthiness:
nonempty). -/
def sentFiles (fileUploads : List FileUpload) : List FileRef :=
  (fileUploads.filter
    (fun upload => decide (upload.url ≠ "") && decide (upload.id ≠ ""))).map mkSentFile

/-- Claim C8: an attachment appears in the outgoing message only if it
carries a remote id and url — the Succeeded state; a freshly queued
upload (in progress) contributes nothing, a failed upload (queued then
failed, url and id still empty) contributes nothing, and a succeeded
upload with a real remote reference contributes exactly its attachment
object. -/
theorem sent_attachments_succeeded :
    (∀ (uploads : List FileUpload) (f : FileRef), f ∈ sentFiles uploads →
        ∃ u : FileUpload, u ∈ uploads ∧ u.url ≠ "" ∧ u.id ≠ "" ∧ f = mkSentFile u) ∧
    (∀ (n t : String) (s : Nat) (rest : List FileUpload),
        sentFiles (newUpload n t s :: rest) = sentFiles rest) ∧
    (∀ (n t : String) (s : Nat) (rest : List FileUpload),
        sentFiles (uploadFail (newUpload n t s) :: rest) = sentFiles rest) ∧
    (∀ (u : FileUpload) (r : RemoteRef) (rest : List FileUpload),
        r.url ≠ "" → r.id ≠ "" →
        sentFiles (uploadSucceed u r :: rest)
          = mkSentFile (uploadSucceed u r) :: sentFiles rest) := by
  refine ⟨?_, ?_, ?_, ?_⟩
  · intro uploads f hf
    unfold sentFiles at hf
    rw [List.mem_map] at hf
    obtain ⟨u, hu, hfu⟩ := hf
    rw [List.mem_filter] at hu
    obtain ⟨humem, hcond⟩ := hu
    simp only [Bool.and_eq_true, decide_eq_true_eq] at hcond
    exact ⟨u, humem, hcond.1, hcond.2, hfu.symm⟩
  · intro n t s rest
    simp [sentFiles, newUpload]
  · intro n t s rest
    simp [sentFiles, newUpload, uploadFail]
  · intro u r rest hurl hid
    simp [sentFiles, uploadSucceed, hurl, hid]

/-- A concrete remote reference. -/
def demoRemote : RemoteRef := ⟨"f1", "view-url", "dl-url"⟩

/-- A concrete freshly selected attachment. -/
def demoUpload : FileUpload := newUpload "photo.png" "image" 42

/-- Witness for `sent_attachments_succeeded` at concrete uploads. -/
theorem sent_attachments_witness :
    (∃ u : FileUpload, u ∈ [uploadSucceed demoUpload demoRemote] ∧
        u.url ≠ "" ∧ u.id ≠ "" ∧
        mkSentFile (uploadSucceed demoUpload demoRemote) = mkSentFile u) ∧
    sentFiles (uploadSucceed demoUpload demoRemote :: [newUpload "doc.pdf" "document" 7])
      = mkSentFile (uploadSucceed demoUpload demoRemote)
          :: sentFiles [newUpload "doc.pdf" "document" 7] :=
  ⟨sent_attachments_succeeded.1 [uploadSucceed demoUpload demoRemote]
      (mkSentFile (uploadSucceed demoUpload demoRemote)) (by decide),
   sent_attachments_succeeded.2.2.2 demoUpload demoRemote
      [newUpload "doc.pdf" "document" 7] (by decide) (by decide)⟩

/-! ## Send failure handling

Embeds the control flow of `handleSendMessage`
(src/unnamed/part_009 lines 282-327): an early return when there is
neither trimmed text nor any pending upload; otherwise the message
write (`addDoc`) and then the chat-preview write (`updateDoc`) run
inside one try block whose catch alerts the user; the composition
state (`messageText`, `fileUploads`) is cleared only after both
writes, so any thrown write leaves it intact. -/

/-- JS whitespace for trimming (the characters relevant here). -/
def isJsWhitespace (c : Char) : Bool :=
  decide (c = ' ') || decide (c = '\t') || decide (c = '\n') || decide (c = '\r')

/-- JS `String.prototype.trim()`: strip leading and trailing
whitespace (structural model over the character list). -/
def jsTrim (s : String) : String :=
  ⟨(((s.data.dropWhile isJsWhitespace).reverse.dropWhile isJsWhitespace).reverse)⟩

/-- The composition state the send handler reads and resets. -/
structure ComposeState where
  messageText : String
  fileUploads : List FileUpload
deriving DecidableEq

/-- Outcome of one external write call. -/
inductive WriteOutcome where
  | ok
  | err
deriving DecidableEq

/-- The send handler as a function of the two write outcomes; returns
the new composition state and whether the failure alert was shown. -/
def handleSendMessage (st : ComposeState) (addOutcome updateOutcome : WriteOutcome) :
    ComposeState × Bool :=
  if jsTrim st.messageText = "" ∧ st.fileUploads = [] then (st, false)
  else
    match addOutcome with
    | WriteOutcome.err => (st, true)
    | WriteOutcome.ok =>
      match updateOutcome with
      | WriteOutcome.err => (st, true)
      | WriteOutcome.ok => ({ messageText := "", fileUploads := [] }, false)

/-- Claim C9: when the composed message is nonempty and an external
write of the send operation fails, the failure is surfaced (alert) and
the composed text and attachment list are preserved unchanged; the
composition state is cleared exactly when both writes succeed. -/
theorem send_failure_preserves :
    (∀ (st : ComposeState) (u : WriteOutcome),
        ¬(jsTrim st.messageText = "" ∧ st.fileUploads = []) →
        handleSendMessage st WriteOutcome.err u = (st, true)) ∧
    (∀ st : ComposeState,
        ¬(jsTrim st.messageText = "" ∧ st.fileUploads = []) →
        handleSendMessage st WriteOutcome.ok WriteOutcome.err = (st, true)) ∧
    (∀ st : ComposeState,
        ¬(jsTrim st.messageText = "" ∧ st.fileUploads = []) →
        handleSendMessage st WriteOutcome.ok WriteOutcome.ok
          = (⟨"", []⟩, false)) := by
  refine ⟨?_, ?_, ?_⟩
  · intro st u h
    unfold handleSendMessage
    rw [if_neg h]
  · intro st h
    unfold handleSendMessage
    rw [if_neg h]
  · intro st h
    unfold handleSendMessage
    rw [if_neg h]

/-- A concrete nonempty composition. -/
def composedHello : ComposeState := ⟨"hello", []⟩

/-- Witness for `send_failure_preserves` at a concrete composition. -/
theorem send_failure_preserves_witness :
    handleSendMessage composedHello WriteOutcome.err WriteOutcome.ok
      = (composedHello, true) ∧
    handleSendMessage composedHello WriteOutcome.ok WriteOutcome.ok
      = (⟨"", []⟩, false) :=
  ⟨send_failure_preserves.1 composedHello WriteOutcome.ok (by decide),
   send_failure_preserves.2.2 composedHello (by decide)⟩

/-! ## Mark-as-read endpoint

Embeds `router.put('/:id/read')` (src/unnamed/part_001 lines 301-355):
`readBy = messageData.readBy || []`; the user is appended and the
document written only when not already included. -/

/-- The endpoint's effect on a message's stored readBy array: the new
array and whether a write was performed. -/
def markAsRead (stored : Option (List String)) (uid : String) :
    List String × Bool :=
  if uid ∈ stored.getD [] then (stored.getD [], false)
  else (stored.getD [] ++ [uid], true)

/-- Message creation stores `readBy: [senderId]`; this folds a
sequence of mark-as-read calls over such a message. -/
def applyReads (creator : String) (readers : List String) : List String :=
  readers.foldl (fun l u => (markAsRead (some l) u).1) [creator]

lemma markAsRead_mem_eq (l : List String) (uid : String) (h : uid ∈ l) :
    markAsRead (some l) uid = (l, false) := by
  unfold markAsRead
  simp only [Option.getD_some]
  rw [if_pos h]

lemma markAsRead_not_mem_eq (l : List String) (uid : String) (h : uid ∉ l) :
    markAsRead (some l) uid = (l ++ [uid], true) := by
  unfold markAsRead
  simp only [Option.getD_some]
  rw [if_neg h]

lemma markAsRead_nodup (stored : Option (List String)) (uid : String)
    (h : (stored.getD []).Nodup) : ((markAsRead stored uid).1).Nodup := by
  unfold markAsRead
  by_cases hmem : uid ∈ stored.getD []
  · rw [if_pos hmem]
    exact h
  · rw [if_neg hmem]
    show ((stored.getD []) ++ [uid]).Nodup
    rw [List.nodup_append]
    refine ⟨h, List.nodup_singleton uid, ?_⟩
    intro x hx hx1
    rw [List.mem_singleton] at hx1
    subst hx1
    exact hmem hx

lemma foldl_markAsRead_nodup (readers : List String) :
    ∀ l : List String, l.Nodup →
      (readers.foldl (fun acc u => (markAsRead (some acc) u).1) l).Nodup := by
  induction readers with
  | nil => intro l h; exact h
  | cons r rest ih =>
    intro l h
    rw [List.foldl_cons]
    exact ih _ (markAsRead_nodup (some l) r h)

/-- Claim C10: marking a message read is idempotent: for a user
already in the stored readBy array the endpoint returns it unchanged
and performs no write; a second application after any first one is a
no-op without a write; the operation preserves freedom from
duplicates; and in any message history — created with readBy equal to
the sender singleton and then marked read in any order — the user
just marked appears in readBy exactly once. -/
theorem markAsRead_idempotent :
    (∀ (l : List String) (uid : String), uid ∈ l →
        markAsRead (some l) uid = (l, false)) ∧
    (∀ (stored : Option (List String)) (uid : String),
        markAsRead (some (markAsRead stored uid).1) uid
          = ((markAsRead stored uid).1, false)) ∧
    (∀ (stored : Option (List String)) (uid : String),
        (stored.getD []).Nodup → ((markAsRead stored uid).1).Nodup) ∧
    (∀ (creator uid : String) (readers : List String),
        (applyReads creator (readers ++ [uid])).count uid = 1) := by
  refine ⟨markAsRead_mem_eq, ?_, markAsRead_nodup, ?_⟩
  · intro stored uid
    have hmem : uid ∈ (markAsRead stored uid).1 := by
      unfold markAsRead
      by_cases h : uid ∈ stored.getD []
      · rw [if_pos h]
        exact h
      · rw [if_neg h]
        exact List.mem_append_right _ (List.mem_singleton_self uid)
    exact markAsRead_mem_eq _ uid hmem
  · intro creator uid readers
    unfold applyReads
    rw [List.foldl_append]
    have hnodup : (readers.foldl (fun acc u => (markAsRead (some acc) u).1)
        [creator]).Nodup :=
      foldl_markAsRead_nodup readers [creator] (List.nodup_singleton creator)
    set L := readers.foldl (fun acc u => (markAsRead (some acc) u).1) [creator]
      with hL
    show ((markAsRead (some L) uid).1).count uid = 1
    by_cases h : uid ∈ L
    · rw [markAsRead_mem_eq L uid h]
      exact List.count_eq_one_of_mem hnodup h
    · rw [markAsRead_not_mem_eq L uid h]
      show (L ++ [uid]).count uid = 1
      rw [List.count_append, List.count_eq_zero_of_not_mem h]
      simp

/-- Witness for `markAsRead_idempotent` at a concrete message. -/
theorem markAsRead_idempotent_witness :
    markAsRead (some ["A", "B"]) "B" = (["A", "B"], false) ∧
    ((markAsRead (some ["A"]) "B").1).Nodup :=
  ⟨markAsRead_idempotent.1 ["A", "B"] "B" (by decide),
   markAsRead_idempotent.2.2.1 (some ["A"]) "B" (by simp)⟩
